import Mathlib

/-!
Shallow embedding of `helpers_jpeg.py` from the jpeg-mosh project, together
with theorems about its segment scanner (`read_structure`) and corruption
engine (`mosh_jpeg_data` / `flipbits`).

Conventions of the embedding:
* A Python `bytes` object is a `List Nat`.  An indexing access `b[k]` that can
  raise `IndexError` is modelled by an explicit bounds check; a raised
  exception surfaces as `ScanExit.indexError` (for the generator) or as
  `none` / `.error .uncaught` (for `flipbits` and `mosh_jpeg_data`).
* Python slices clamp to the available bytes; they are modelled with
  `List.drop`/`List.take`, which clamp the same way.
* The `random` module is modelled by a finite list of draws: each call to
  `random.randint` / `random.choice` consumes one entry and maps it into the
  requested range.  Quantifying over all draw lists covers every possible
  random outcome; a concrete draw list exhibits one possible outcome.
* The human-readable `descr` string of each yielded tuple and all
  `debug`-guarded printing are omitted: with `debug=False` nothing in those
  branches runs, and no other code inspects `descr`.
* `PIL.Image` decoding (used only when `validate=True`) is abstracted as a
  boolean-valued collaborator `decode_ok` (`true` = the candidate decodes,
  `false` = `Image.open`/`load` raises `IOError`).
-/

namespace JpegMosh

/-! ### Marker constants (module-level constants of the source) -/

def SOI : Nat := 0xd8
def EOI : Nat := 0xd9
def SOS : Nat := 0xda
def DQT : Nat := 0xdb
def APP0 : Nat := 0xe0
def APP15 : Nat := 0xef
def COM : Nat := 0xfe

/-! ### The segment scanner `read_structure` -/

/-- One yielded 4-tuple of `read_structure`, minus the purely informational
description string: marker byte, declared advance (`moveon`), and the raw
segment bytes (`segdata = jpeg_data[i:i+moveon]`). -/
structure Segment where
  marker : Nat
  moveon : Nat
  segdata : List Nat
deriving DecidableEq

/-- How a run of the `read_structure` generator ends:
`atEnd` = the cursor reached (or passed) the end of the buffer;
`earlyBreak` = the byte at the cursor was not `0xff` (the `break` at line 97);
`indexError` = a direct `jpeg_data[k]` access with `k` past the end raised
`IndexError`; `fuelOut` = artificial fuel exhaustion (never reached, since
every iteration advances the cursor by at least 2). -/
inductive ScanExit
  | atEnd
  | earlyBreak
  | indexError
  | fuelOut
deriving DecidableEq

/-- Result of one iteration of the scanner's `while` loop. -/
inductive StepResult
  | yield (s : Segment) (next : Nat)
  | stop
  | oob
deriving DecidableEq

/-- `jpeg_data.endswith(b'\xff\xd9')`. -/
def endsWithEOI (jd : List Nat) : Bool :=
  [0xff, 0xd9].isSuffixOf jd

/-- The markers the source gives a fixed 2-byte size: SOI, EOI, the eight
restart markers `0xd0`–`0xd7`, and the reserved range `0x30`–`0x3f`. -/
def fixed_size_marker (m : Nat) : Prop :=
  m = SOI ∨ m = EOI ∨ (0xd0 ≤ m ∧ m ≤ 0xd7) ∨ (0x30 ≤ m ∧ m ≤ 0x3f)

instance : DecidablePred fixed_size_marker := fun m => by
  unfold fixed_size_marker; infer_instance

/-- Markers that fall through to the final `else` of the dispatch, the
"assume it codes its own length" strategy (every marker that is not
fixed-size, not `0xdd`, and not Start-Of-Scan). -/
def length_prefixed_marker (m : Nat) : Prop :=
  ¬ fixed_size_marker m ∧ m ≠ 0xdd ∧ m ≠ SOS

instance : DecidablePred length_prefixed_marker := fun m => by
  unfold length_prefixed_marker; infer_instance

/-- The Start-Of-Scan branch reads `jpeg_data[i+4+2*ci]` (component id) and
`jpeg_data[i+4+2*ci+1]` (huffman-table byte) for each `ci < num_components`;
this is `true` when every one of those reads is in bounds. -/
def sos_component_reads_ok (jd : List Nat) (i nc : Nat) : Bool :=
  (List.range nc).all fun ci =>
    decide (i + 4 + 2 * ci < jd.length) && decide (i + 4 + 2 * ci + 1 < jd.length)

/-- Build the yielded segment: `segdata = jpeg_data[i:i+moveon]` (line 378,
which recomputes `segdata` for every branch) and advance to `i + moveon`. -/
def yieldSeg (jd : List Nat) (i marker moveon : Nat) : StepResult :=
  StepResult.yield ⟨marker, moveon, (jd.drop i).take moveon⟩ (i + moveon)

/-- Start-Of-Scan sizing.  The source reads the 2-byte header size at
`i+2`/`i+3`, `num_components` at `i+4`, and the per-component bytes (the
values are only printed when debugging, but the reads happen regardless and
can raise `IndexError`).  Then, as a documented heuristic, the segment runs
to the trailing End-Of-Image marker if the buffer ends with one, else to the
end of the buffer. -/
def sosStep (jd : List Nat) (i marker : Nat) : StepResult :=
  if i + 4 < jd.length then
    -- reads of jpeg_data[i+2], jpeg_data[i+3] (header size, unused for
    -- sizing) and jpeg_data[i+4] (num_components) are all in bounds here
    if sos_component_reads_ok jd i (jd.getD (i + 4) 0) then
      if endsWithEOI jd then
        yieldSeg jd i marker (jd.length - i - 2)
      else
        yieldSeg jd i marker (jd.length - i)
    else StepResult.oob
  else StepResult.oob

/-- The marker dispatch of the scanner loop body (lines 108–309). -/
def scanDispatch (jd : List Nat) (i marker : Nat) : StepResult :=
  if fixed_size_marker marker then
    yieldSeg jd i marker 2
  else if marker = 0xdd then
    -- restart interval
    yieldSeg jd i marker 6
  else if marker = SOS then
    sosStep jd i marker
  else
    -- "assume it's one that codes its length"
    if i + 3 < jd.length then
      let datasize := 256 * jd.getD (i + 2) 0 + jd.getD (i + 3) 0
      yieldSeg jd i marker (datasize + 2)
    else StepResult.oob

/-- One iteration of the `while i < len(jpeg_data)` loop (the caller
guarantees `i < jd.length`): stop if the byte at the cursor is not `0xff`,
read the marker byte (raising if it is past the end), and dispatch. -/
def scanStep (jd : List Nat) (i : Nat) : StepResult :=
  if jd.getD i 0 ≠ 0xff then StepResult.stop
  else if i + 1 < jd.length then
    scanDispatch jd i (jd.getD (i + 1) 0)
  else StepResult.oob

/-- The scanner loop, with explicit fuel (each iteration advances the cursor
by at least 2, so `jd.length + 1` units of fuel are never exhausted). -/
def read_structure_go (jd : List Nat) : Nat → Nat → List Segment × ScanExit
  | 0, _ => ([], ScanExit.fuelOut)
  | fuel + 1, i =>
    if i < jd.length then
      match scanStep jd i with
      | StepResult.yield s next =>
        ((s :: (read_structure_go jd fuel next).1), (read_structure_go jd fuel next).2)
      | StepResult.stop => ([], ScanExit.earlyBreak)
      | StepResult.oob => ([], ScanExit.indexError)
    else ([], ScanExit.atEnd)

/-- `read_structure(jpeg_data)`: the list of yielded segments together with
how the generator run ended. -/
def read_structure (jd : List Nat) : List Segment × ScanExit :=
  read_structure_go jd (jd.length + 1) 0

/-! ### The randomness model and `flipbits` -/

/-- `random.randint(a, b)`: consumes one draw and maps it into `[a, b]`
(both endpoints included); raises `ValueError` (modelled `none`) when
`a > b`.  Also `none` when the finite draw list is exhausted. -/
def randint (a b : Int) (g : List Nat) : Option (Int × List Nat) :=
  if a ≤ b then
    match g with
    | [] => none
    | n :: g' => some (a + (n : Int) % (b - a + 1), g')
  else none

/-- `random.choice(l)`: consumes one draw and picks an element of `l`;
raises (modelled `none`) when `l` is empty. -/
def choice (l : List Nat) (g : List Nat) : Option (Nat × List Nat) :=
  if l.isEmpty then none
  else
    match g with
    | [] => none
    | n :: g' => some (l.getD (n % l.length) 0, g')

/-- The inner `for _ in range(howmanybits)` loop of `flipbits`: repeatedly
pick `bitnum = random.randint(0,7)` and XOR `2**bitnum` into the byte. -/
def flip_byte_bits : Nat → Nat → List Nat → Option (Nat × List Nat)
  | 0, byte, g => some (byte, g)
  | k + 1, byte, g =>
    match randint 0 7 g with
    | none => none
    | some (bitnum, g') => flip_byte_bits k (Nat.xor byte (2 ^ bitnum.toNat)) g'

/-- Choice of the target byte index in one round of the `flipbits` loop:
`random.choice(mask)` when the (already filtered) mask is truthy, else
`random.randint(skipfirstbytes, len(data)-1)` where `dlen = len(data)`. -/
def pick_target (dlen : Nat) (mask : List Nat) (skipfirstbytes : Nat) (g : List Nat) :
    Option (Nat × List Nat) :=
  if mask.isEmpty then
    match randint (skipfirstbytes : Int) ((dlen : Int) - 1) g with
    | none => none
    | some (tb, g') => some (tb.toNat, g')
  else choice mask g

/-- The `while howmanytimes>0` loop of `flipbits`.  `mask` is the already
filtered mask; `dlen` is `len(data)` of the original argument (equal to
`retdata.length` throughout). -/
def flipbits_loop (dlen : Nat) (mask : List Nat) (skipfirstbytes howmanybits : Nat) :
    Nat → List Nat → List Nat → Option (List Nat × List Nat)
  | 0, retdata, g => some (retdata, g)
  | t + 1, retdata, g =>
    match pick_target dlen mask skipfirstbytes g with
    | none => none
    | some (targetbyte, g') =>
      match flip_byte_bits howmanybits (retdata.getD targetbyte 0) g' with
      | none => none
      | some (newbyte, g'') =>
        flipbits_loop dlen mask skipfirstbytes howmanybits t (retdata.set targetbyte newbyte) g''

/-- `flipbits(data, howmanytimes, howmanybits, skipfirstbytes, mask)`.
`mask = []` plays the role of Python's `mask=None` (both are falsy, and the
source only ever tests the mask's truthiness).  A truthy mask is first
filtered to indices strictly above `skipfirstbytes` and strictly below
`len(data)`.  The source XORs `retdata[targetbyte]` in place once per bit;
composing the XORs on the byte and writing it back once is the same. -/
def flipbits (data : List Nat) (howmanytimes howmanybits skipfirstbytes : Nat)
    (mask : List Nat) (g : List Nat) : Option (List Nat × List Nat) :=
  let mask' :=
    if mask.isEmpty then mask
    else mask.filter fun index => decide (skipfirstbytes < index ∧ index < data.length)
  flipbits_loop data.length mask' skipfirstbytes howmanybits howmanytimes data g

/-! ### The corruption engine `mosh_jpeg_data` -/

/-- The index list built in the quantization-table branch of
`mosh_jpeg_data` (`i=4; for _ in range(4): i+=1; mask.extend(range(i,i+64))`),
intended "to only corrupt the table values themselves".  Note the source
computes this list but never passes it to `flipbits`. -/
def dqt_mask : List Nat :=
  ((List.range 4).foldl
    (fun (p : Nat × List Nat) _ => (p.1 + 1, p.2 ++ List.range' (p.1 + 1) 64))
    (4, [])).2

/-- `ValueError("Didn't get valid data after %d tries, ...")` versus any
other uncaught exception propagating out of `mosh_jpeg_data`
(an `IndexError` from `read_structure` or a `ValueError` from `randint`). -/
inductive MoshError
  | retryExhausted
  | uncaught
deriving DecidableEq

/-- The per-segment treatment inside the `for ... in read_structure(...)`
loop: quantization tables and scan data are bit-flipped when the
corresponding `typ` flag is set, markers `0xe1`–`0xef` are stripped, and
everything else passes through. -/
def mosh_segment (typ : Nat) (qt im : Nat × Nat) (seg : Segment) (g : List Nat) :
    Option (List Nat × List Nat) :=
  if seg.marker = DQT then
    -- the source builds `dqt_mask` here "to try to only corrupt the table
    -- values themselves" but then calls flipbits without passing it, so the
    -- call below runs with mask=None and only skipfirstbytes=4
    let _mask := dqt_mask
    if typ &&& 0x01 ≠ 0 then
      flipbits seg.segdata qt.1 qt.2 4 [] g
    else some (seg.segdata, g)
  else if seg.marker = SOS then
    if typ &&& 0x02 ≠ 0 then
      flipbits seg.segdata im.1 im.2 20 [] g
    else some (seg.segdata, g)
  else if 0xe1 ≤ seg.marker ∧ seg.marker ≤ 0xef then
    some ([], g)  -- strip APP1..15
  else
    some (seg.segdata, g)

/-- Runs `mosh_segment` over the yielded segments in order, threading the
randomness and collecting the pieces appended to `ret`. -/
def mosh_segments (typ : Nat) (qt im : Nat × Nat) :
    List Segment → List Nat → Option (List (List Nat) × List Nat)
  | [], g => some ([], g)
  | s :: rest, g =>
    match mosh_segment typ qt im s g with
    | none => none
    | some (piece, g') =>
      match mosh_segments typ qt im rest g' with
      | none => none
      | some (pieces, g'') => some (piece :: pieces, g'')

/-- One iteration of the retry loop: scan the input (an `IndexError` from
the generator propagates), corrupt segment by segment, and join the pieces
(`retdata = b''.join(ret)`). -/
def mosh_attempt (jpegdata : List Nat) (typ : Nat) (qt im : Nat × Nat) (g : List Nat) :
    Option (List Nat × List Nat) :=
  if (read_structure jpegdata).2 = ScanExit.indexError ∨
     (read_structure jpegdata).2 = ScanExit.fuelOut then none
  else
    match mosh_segments typ qt im (read_structure jpegdata).1 g with
    | none => none
    | some (pieces, g') => some (pieces.flatten, g')

/-- The `while tries > 0` retry loop of `mosh_jpeg_data`: build a candidate,
return it unconditionally if `validate` is false, otherwise return it when
the external decoder accepts it and retry when it does not; raise the
retry-exhaustion `ValueError` when the loop runs out of tries. -/
def mosh_loop (jpegdata : List Nat) (typ : Nat) (qt im : Nat × Nat)
    (validate : Bool) (decode_ok : List Nat → Bool) :
    Nat → List Nat → Except MoshError (List Nat)
  | 0, _ => Except.error MoshError.retryExhausted
  | t + 1, g =>
    match mosh_attempt jpegdata typ qt im g with
    | none => Except.error MoshError.uncaught
    | some (retdata, g') =>
      if validate = false then Except.ok retdata
      else if decode_ok retdata then Except.ok retdata
      else mosh_loop jpegdata typ qt im validate decode_ok t g'

/-- `mosh_jpeg_data(jpegdata, typ, qt, im, validate, validate_maxtries)`,
with the external decoder abstracted as `decode_ok` and the randomness as a
draw list `g`. -/
def mosh_jpeg_data (jpegdata : List Nat) (typ : Nat) (qt im : Nat × Nat)
    (validate : Bool) (validate_maxtries : Nat) (decode_ok : List Nat → Bool)
    (g : List Nat) : Except MoshError (List Nat) :=
  mosh_loop jpegdata typ qt im validate decode_ok validate_maxtries g

/-- The candidates the retry loop would generate from draw list `g` in
`tries` attempts, when every attempt generates without an exception. -/
def mosh_candidates (jpegdata : List Nat) (typ : Nat) (qt im : Nat × Nat) :
    Nat → List Nat → Option (List (List Nat))
  | 0, _ => some []
  | t + 1, g =>
    match mosh_attempt jpegdata typ qt im g with
    | none => none
    | some (c, g') =>
      match mosh_candidates jpegdata typ qt im t g' with
      | none => none
      | some cs => some (c :: cs)

/-- A marker the corruption engine leaves completely alone under mode `typ`:
not a stripped application marker, and not a bit-flip target for the given
mode flags. -/
def nontargeted (typ m : Nat) : Prop :=
  ¬ (0xe1 ≤ m ∧ m ≤ 0xef) ∧ (m = DQT → typ &&& 0x01 = 0) ∧ (m = SOS → typ &&& 0x02 = 0)

/-! ### Scanner lemmas -/

theorem yieldSeg_eq {jd : List Nat} {i marker m : Nat} {s : Segment} {next : Nat}
    (h : yieldSeg jd i marker m = StepResult.yield s next) :
    s = ⟨marker, m, (jd.drop i).take m⟩ ∧ next = i + m := by
  unfold yieldSeg at h
  cases h
  exact ⟨rfl, rfl⟩

/-- Characterization of a successful dispatch step: which marker class was
taken and the `moveon` it computed. -/
theorem scanDispatch_yield_spec {jd : List Nat} {i marker : Nat} {s : Segment} {next : Nat}
    (h : scanDispatch jd i marker = StepResult.yield s next) :
    s.marker = marker ∧ next = i + s.moveon ∧ s.segdata = (jd.drop i).take s.moveon ∧
    ((fixed_size_marker marker ∧ s.moveon = 2) ∨
     (marker = 0xdd ∧ s.moveon = 6) ∨
     (marker = SOS ∧ i + 4 < jd.length ∧
       s.moveon = (if endsWithEOI jd then jd.length - i - 2 else jd.length - i)) ∨
     (length_prefixed_marker marker ∧ i + 3 < jd.length ∧
       s.moveon = 256 * jd.getD (i + 2) 0 + jd.getD (i + 3) 0 + 2)) := by
  unfold scanDispatch sosStep at h
  split at h
  · obtain ⟨hs, hn⟩ := yieldSeg_eq h
    subst hs; subst hn
    exact ⟨rfl, rfl, rfl, Or.inl ⟨by assumption, rfl⟩⟩
  · split at h
    · obtain ⟨hs, hn⟩ := yieldSeg_eq h
      subst hs; subst hn
      exact ⟨rfl, rfl, rfl, Or.inr (Or.inl ⟨by assumption, rfl⟩)⟩
    · split at h
      · -- Start-Of-Scan
        split at h
        · split at h
          · split at h
            · obtain ⟨hs, hn⟩ := yieldSeg_eq h
              subst hs; subst hn
              refine ⟨rfl, rfl, rfl, Or.inr (Or.inr (Or.inl ⟨by assumption, by assumption, ?_⟩))⟩
              simp only [*, if_true]
            · obtain ⟨hs, hn⟩ := yieldSeg_eq h
              subst hs; subst hn
              refine ⟨rfl, rfl, rfl, Or.inr (Or.inr (Or.inl ⟨by assumption, by assumption, ?_⟩))⟩
              simp only [*, if_false]
              split <;> simp_all
          · cases h
        · cases h
      · -- length-prefixed default
        split at h
        · obtain ⟨hs, hn⟩ := yieldSeg_eq h
          subst hs; subst hn
          refine ⟨rfl, rfl, rfl, Or.inr (Or.inr (Or.inr ⟨⟨?_, ?_, ?_⟩, by assumption, rfl⟩))⟩
          all_goals assumption
        · cases h

/-- Characterization of a successful scanner step. -/
theorem scanStep_yield_spec {jd : List Nat} {i : Nat} {s : Segment} {next : Nat}
    (h : scanStep jd i = StepResult.yield s next) :
    jd.getD i 0 = 0xff ∧ i + 1 < jd.length ∧ s.marker = jd.getD (i + 1) 0 ∧
    next = i + s.moveon ∧ s.segdata = (jd.drop i).take s.moveon ∧
    ((fixed_size_marker s.marker ∧ s.moveon = 2) ∨
     (s.marker = 0xdd ∧ s.moveon = 6) ∨
     (s.marker = SOS ∧ i + 4 < jd.length ∧
       s.moveon = (if endsWithEOI jd then jd.length - i - 2 else jd.length - i)) ∨
     (length_prefixed_marker s.marker ∧ i + 3 < jd.length ∧
       s.moveon = 256 * jd.getD (i + 2) 0 + jd.getD (i + 3) 0 + 2)) := by
  unfold scanStep at h
  split at h
  · cases h
  · split at h
    · obtain ⟨hm, hn, hd, hrest⟩ := scanDispatch_yield_spec h
      refine ⟨by simp_all, by assumption, ?_, hn, hd, ?_⟩
      · exact hm.symm ▸ rfl
      · rwa [hm]
    · cases h

/-! Unfolding equations for one iteration of the scanner loop. -/

theorem read_structure_go_succ_yield {jd : List Nat} {fuel i : Nat} {s0 : Segment}
    {next : Nat} (hi : i < jd.length) (heq : scanStep jd i = StepResult.yield s0 next) :
    read_structure_go jd (fuel + 1) i =
      ((s0 :: (read_structure_go jd fuel next).1), (read_structure_go jd fuel next).2) := by
  rw [read_structure_go, if_pos hi, heq]

theorem read_structure_go_succ_stop {jd : List Nat} {fuel i : Nat}
    (hi : i < jd.length) (heq : scanStep jd i = StepResult.stop) :
    read_structure_go jd (fuel + 1) i = ([], ScanExit.earlyBreak) := by
  rw [read_structure_go, if_pos hi, heq]

theorem read_structure_go_succ_oob {jd : List Nat} {fuel i : Nat}
    (hi : i < jd.length) (heq : scanStep jd i = StepResult.oob) :
    read_structure_go jd (fuel + 1) i = ([], ScanExit.indexError) := by
  rw [read_structure_go, if_pos hi, heq]

theorem read_structure_go_succ_end {jd : List Nat} {fuel i : Nat}
    (hi : ¬ i < jd.length) :
    read_structure_go jd (fuel + 1) i = ([], ScanExit.atEnd) := by
  rw [read_structure_go, if_neg hi]

/-- Every yielded segment comes from a successful `scanStep` at some offset. -/
theorem mem_read_structure_go {jd : List Nat} :
    ∀ fuel i s, s ∈ (read_structure_go jd fuel i).1 →
      ∃ j next, scanStep jd j = StepResult.yield s next := by
  intro fuel
  induction fuel with
  | zero => intro i s hs; simp [read_structure_go] at hs
  | succ fuel ih =>
    intro i s hs
    by_cases hi : i < jd.length
    · cases heq : scanStep jd i with
      | yield s0 next =>
        rw [read_structure_go_succ_yield hi heq] at hs
        rcases List.mem_cons.mp hs with h1 | h1
        · exact ⟨i, next, by rw [h1]; exact heq⟩
        · exact ih next s h1
      | stop => rw [read_structure_go_succ_stop hi heq] at hs; simp at hs
      | oob => rw [read_structure_go_succ_oob hi heq] at hs; simp at hs
    · rw [read_structure_go_succ_end hi] at hs; simp at hs

theorem mem_read_structure {jd : List Nat} {s : Segment}
    (hs : s ∈ (read_structure jd).1) :
    ∃ j next, scanStep jd j = StepResult.yield s next :=
  mem_read_structure_go (jd.length + 1) 0 s hs

/-- When a scanner run ends with the cursor reaching the end of the buffer,
the yielded segments' bytes concatenate to the unscanned part of the input. -/
theorem read_structure_go_atEnd_concat {jd : List Nat} :
    ∀ fuel i, (read_structure_go jd fuel i).2 = ScanExit.atEnd →
      ((read_structure_go jd fuel i).1.map Segment.segdata).flatten = jd.drop i := by
  intro fuel
  induction fuel with
  | zero => intro i h; simp [read_structure_go] at h
  | succ fuel ih =>
    intro i h
    by_cases hi : i < jd.length
    · cases heq : scanStep jd i with
      | yield s0 next =>
        obtain ⟨-, -, -, hnext, hdata, -⟩ := scanStep_yield_spec heq
        rw [read_structure_go_succ_yield hi heq] at h ⊢
        simp only [List.map_cons, List.flatten_cons]
        rw [ih next h, hdata, hnext, ← List.drop_drop, List.take_append_drop]
      | stop => rw [read_structure_go_succ_stop hi heq] at h; cases h
      | oob => rw [read_structure_go_succ_oob hi heq] at h; cases h
    · rw [read_structure_go_succ_end hi]
      simp [List.drop_eq_nil_of_le (Nat.le_of_not_lt hi)]

/-- `getD` through the slice `jpeg_data[i:i+m]`. -/
theorem getD_drop_take {jd : List Nat} {i m k : Nat}
    (h : k < ((jd.drop i).take m).length) :
    ((jd.drop i).take m).getD k 0 = jd.getD (i + k) 0 := by
  have h2 : i + k < jd.length := by
    simp only [List.length_take, List.length_drop] at h; omega
  rw [List.getD_eq_getElem _ _ h, List.getD_eq_getElem _ _ h2,
    List.getElem_take, List.getElem_drop]

/-! ### Claim C1 -/

/-- C1, as stated, is false: this buffer begins with the Start-Of-Image
marker and ends with the End-Of-Image marker, yet the scanner stops at the
non-`0xff` byte at offset 2, so the concatenation of the yielded segments'
bytes is only the 2-byte prefix, not the whole buffer. -/
theorem C1_counterexample :
    [0xff, 0xd8, 0x00, 0xff, 0xd9].take 2 = [0xff, 0xd8] ∧
    [0xff, 0xd8, 0x00, 0xff, 0xd9].drop 3 = [0xff, 0xd9] ∧
    ((read_structure [0xff, 0xd8, 0x00, 0xff, 0xd9]).1.map Segment.segdata).flatten ≠
      [0xff, 0xd8, 0x00, 0xff, 0xd9] := by
  decide

/-- C1 (amended): whenever `read_structure` terminates with the cursor at or
past the end of the buffer (no early `break` on a non-`0xff` byte and no
`IndexError`), concatenating the `segdata` bytes of all yielded segments, in
yield order, reproduces the input buffer byte-for-byte. -/
theorem C1_amended (jd : List Nat) (h : (read_structure jd).2 = ScanExit.atEnd) :
    ((read_structure jd).1.map Segment.segdata).flatten = jd := by
  have h0 := @read_structure_go_atEnd_concat jd (jd.length + 1) 0 h
  rwa [List.drop_zero] at h0

/-- C1 witness: a complete SOI–EOI file is scanned to the end and
reassembles exactly. -/
theorem C1_witness :
    (read_structure [0xff, 0xd8, 0xff, 0xd9]).2 = ScanExit.atEnd ∧
    ((read_structure [0xff, 0xd8, 0xff, 0xd9]).1.map Segment.segdata).flatten =
      [0xff, 0xd8, 0xff, 0xd9] :=
  ⟨by decide, C1_amended [0xff, 0xd8, 0xff, 0xd9] (by decide)⟩

/-! ### Claim C2 -/

/-- C2, as stated, is false: on the 1-byte input `0xff` the scanner reads
the marker byte `jpeg_data[i+1]` past the end of the buffer, raising
`IndexError` instead of terminating without an exception. -/
theorem C2_counterexample :
    (read_structure [0xff]).2 = ScanExit.indexError := by
  decide

/-- C2 (amended): `read_structure` clamps every yielded segment's byte slice
to the available bytes — each yielded `segdata` is a contiguous in-bounds
slice of the input — but it is not exception-free: a marker, length-field or
Start-Of-Scan header byte falling past the buffer end raises `IndexError`. -/
theorem C2_amended (jd : List Nat) (s : Segment) (hs : s ∈ (read_structure jd).1) :
    s.segdata <:+: jd := by
  obtain ⟨i, next, hstep⟩ := mem_read_structure hs
  obtain ⟨-, -, -, -, hdata, -⟩ := scanStep_yield_spec hstep
  refine ⟨jd.take i, (jd.drop i).drop s.moveon, ?_⟩
  rw [hdata, List.append_assoc, List.take_append_drop, List.take_append_drop]

/-- C2 witness: the SOI segment yielded from a 2-byte file is an in-bounds
slice of it. -/
theorem C2_witness :
    (⟨0xd8, 2, [0xff, 0xd8]⟩ : Segment) ∈ (read_structure [0xff, 0xd8]).1 ∧
    [0xff, 0xd8] <:+: [0xff, 0xd8] :=
  ⟨by decide, C2_amended [0xff, 0xd8] ⟨0xd8, 2, [0xff, 0xd8]⟩ (by decide)⟩

/-! ### Claim C3 -/

/-- C3: every Start-Of-Scan segment yielded by `read_structure` starts at
the `0xff` of its marker and runs to the trailing End-Of-Image marker
(excluded) when the buffer's last two bytes are `0xff 0xd9`
(`segdata = jpeg_data[i:-2]`), and to the end of the buffer otherwise
(`segdata = jpeg_data[i:]`). -/
theorem C3_sos_span (jd : List Nat) (s : Segment) (hs : s ∈ (read_structure jd).1)
    (hm : s.marker = SOS) :
    ∃ i, i + 1 < jd.length ∧ jd.getD i 0 = 0xff ∧ jd.getD (i + 1) 0 = SOS ∧
      s.segdata = (if endsWithEOI jd then (jd.take (jd.length - 2)).drop i
                   else jd.drop i) := by
  obtain ⟨i, next, hstep⟩ := mem_read_structure hs
  obtain ⟨hff, hlen, hmark, -, hdata, hdisj⟩ := scanStep_yield_spec hstep
  refine ⟨i, hlen, hff, by rw [← hmark, hm], ?_⟩
  rcases hdisj with ⟨hfix, -⟩ | ⟨hdd, -⟩ | ⟨-, -, hmv⟩ | ⟨hlp, -, -⟩
  · rw [hm] at hfix; exact absurd hfix (by decide)
  · rw [hm] at hdd; exact absurd hdd (by decide)
  · cases hE : endsWithEOI jd with
    | true =>
      rw [hE, if_pos rfl] at hmv
      rw [if_pos rfl, hdata, hmv]
      have hsub : jd.length - 2 - i = jd.length - i - 2 := by omega
      rw [List.drop_take, hsub]
    | false =>
      rw [hE, if_neg (by simp)] at hmv
      rw [if_neg (by simp), hdata, hmv]
      exact List.take_of_length_le (by rw [List.length_drop])
  · exact absurd hm hlp.2.2

/-- C3 witness: a file whose Start-Of-Scan data is followed by a trailing
End-Of-Image marker; the scan segment stops right before it. -/
theorem C3_witness :
    (⟨0xda, 10, [0xff, 0xda, 0x00, 0x08, 0x01, 0x01, 0x00, 0x3f, 0x00, 0xaa]⟩ : Segment) ∈
      (read_structure [0xff, 0xda, 0x00, 0x08, 0x01, 0x01, 0x00, 0x3f, 0x00, 0xaa, 0xff, 0xd9]).1 ∧
    (∃ i, i + 1 < ([0xff, 0xda, 0x00, 0x08, 0x01, 0x01, 0x00, 0x3f, 0x00, 0xaa, 0xff, 0xd9] : List Nat).length ∧
      [0xff, 0xda, 0x00, 0x08, 0x01, 0x01, 0x00, 0x3f, 0x00, 0xaa, 0xff, 0xd9].getD i 0 = 0xff ∧
      [0xff, 0xda, 0x00, 0x08, 0x01, 0x01, 0x00, 0x3f, 0x00, 0xaa, 0xff, 0xd9].getD (i + 1) 0 = SOS ∧
      (⟨0xda, 10, [0xff, 0xda, 0x00, 0x08, 0x01, 0x01, 0x00, 0x3f, 0x00, 0xaa]⟩ : Segment).segdata =
        (if endsWithEOI [0xff, 0xda, 0x00, 0x08, 0x01, 0x01, 0x00, 0x3f, 0x00, 0xaa, 0xff, 0xd9] then
          ([0xff, 0xda, 0x00, 0x08, 0x01, 0x01, 0x00, 0x3f, 0x00, 0xaa, 0xff, 0xd9].take
            (([0xff, 0xda, 0x00, 0x08, 0x01, 0x01, 0x00, 0x3f, 0x00, 0xaa, 0xff, 0xd9] : List Nat).length - 2)).drop i
         else [0xff, 0xda, 0x00, 0x08, 0x01, 0x01, 0x00, 0x3f, 0x00, 0xaa, 0xff, 0xd9].drop i)) :=
  ⟨by decide,
   C3_sos_span [0xff, 0xda, 0x00, 0x08, 0x01, 0x01, 0x00, 0x3f, 0x00, 0xaa, 0xff, 0xd9]
     ⟨0xda, 10, [0xff, 0xda, 0x00, 0x08, 0x01, 0x01, 0x00, 0x3f, 0x00, 0xaa]⟩
     (by decide) (by decide)⟩

/-! ### Claim C4 -/

/-- C4, as stated, is false: on this truncated input the single yielded
segment declares `moveon = 18` while its clamped `segdata` holds only the 4
available bytes. -/
theorem C4_counterexample :
    (read_structure [0xff, 0xe0, 0x00, 0x10]).1 =
      [⟨0xe0, 18, [0xff, 0xe0, 0x00, 0x10]⟩] ∧
    ¬ ((18 : Nat) = ([0xff, 0xe0, 0x00, 0x10] : List Nat).length) := by
  decide

/-- C4 (amended): every yielded segment's bytes are the clamp of its
declared span to the buffer, so `len(segdata) ≤ moveon` always, with
equality whenever the declared span fits inside the buffer. -/
theorem C4_amended (jd : List Nat) (s : Segment) (hs : s ∈ (read_structure jd).1) :
    ∃ i, s.segdata = (jd.drop i).take s.moveon ∧
      s.segdata.length ≤ s.moveon ∧
      (i + s.moveon ≤ jd.length → s.segdata.length = s.moveon) := by
  obtain ⟨i, next, hstep⟩ := mem_read_structure hs
  obtain ⟨-, -, -, -, hdata, -⟩ := scanStep_yield_spec hstep
  refine ⟨i, hdata, ?_, ?_⟩
  · rw [hdata]; simp only [List.length_take, List.length_drop]; omega
  · intro hfit
    rw [hdata]; simp only [List.length_take, List.length_drop]; omega

/-- C4 witness: a segment that fits in the buffer has
`moveon = len(segdata)`. -/
theorem C4_witness :
    (⟨0xd8, 2, [0xff, 0xd8]⟩ : Segment) ∈ (read_structure [0xff, 0xd8]).1 ∧
    (∃ i, (⟨0xd8, 2, [0xff, 0xd8]⟩ : Segment).segdata =
        (([0xff, 0xd8] : List Nat).drop i).take 2 ∧
      ([0xff, 0xd8] : List Nat).length ≤ 2 ∧
      (i + 2 ≤ ([0xff, 0xd8] : List Nat).length →
        ([0xff, 0xd8] : List Nat).length = 2)) :=
  ⟨by decide, C4_amended [0xff, 0xd8] ⟨0xd8, 2, [0xff, 0xd8]⟩ (by decide)⟩

/-! ### `flipbits` lemmas -/

theorem randint_bounds {a b : Int} {g : List Nat} {t : Int} {g' : List Nat}
    (h : randint a b g = some (t, g')) : a ≤ t ∧ t ≤ b := by
  unfold randint at h
  split at h
  · rename_i hab
    cases g with
    | nil => exact absurd h (by simp)
    | cons n g0 =>
      simp only [Option.some.injEq, Prod.mk.injEq] at h
      obtain ⟨ht, -⟩ := h
      have h1 : 0 ≤ (n : Int) % (b - a + 1) := Int.emod_nonneg _ (by omega)
      have h2 : (n : Int) % (b - a + 1) < b - a + 1 := Int.emod_lt_of_pos _ (by omega)
      omega
  · exact absurd h (by simp)

/-- Without a mask, the picked target index is at least `skipfirstbytes`. -/
theorem pick_target_ge {dlen K : Nat} {g : List Nat} {tb : Nat} {g' : List Nat}
    (h : pick_target dlen [] K g = some (tb, g')) : K ≤ tb := by
  unfold pick_target at h
  simp only [List.isEmpty_nil, if_true] at h
  cases hr : randint (K : Int) ((dlen : Int) - 1) g with
  | none => rw [hr] at h; cases h
  | some p =>
    obtain ⟨t, g1⟩ := p
    rw [hr] at h
    simp only [Option.some.injEq, Prod.mk.injEq] at h
    obtain ⟨htb, -⟩ := h
    have := (randint_bounds hr).1
    omega

/-- Writing at an index at or past `K` does not change the first `K`
entries. -/
theorem take_set_of_le (a : Nat) :
    ∀ (l : List Nat) (m K : Nat), K ≤ m → (l.set m a).take K = l.take K := by
  intro l
  induction l with
  | nil => intro m K h; simp
  | cons x xs ih =>
    intro m K h
    cases m with
    | zero =>
      cases K with
      | zero => simp
      | succ K => exact absurd h (by omega)
    | succ m =>
      cases K with
      | zero => simp
      | succ K =>
        simp only [List.set_cons_succ, List.take_succ_cons]
        rw [ih m K (by omega)]

/-- Every round of the maskless `flipbits` loop targets an index ≥
`skipfirstbytes`, so the first `skipfirstbytes` bytes survive. -/
theorem flipbits_loop_keeps_head {dlen K b : Nat} :
    ∀ t retdata g res g',
      flipbits_loop dlen [] K b t retdata g = some (res, g') →
      res.take K = retdata.take K := by
  intro t
  induction t with
  | zero =>
    intro retdata g res g' h
    unfold flipbits_loop at h
    cases h
    rfl
  | succ t ih =>
    intro retdata g res g' h
    unfold flipbits_loop at h
    cases hp : pick_target dlen [] K g with
    | none => rw [hp] at h; cases h
    | some p =>
      obtain ⟨tb, g1⟩ := p
      rw [hp] at h
      simp only at h
      cases hf : flip_byte_bits b (retdata.getD tb 0) g1 with
      | none => rw [hf] at h; cases h
      | some q =>
        obtain ⟨nb, g2⟩ := q
        rw [hf] at h
        simp only at h
        rw [ih _ _ _ _ h]
        exact take_set_of_le nb retdata tb K (pick_target_ge hp)

/-- The `flipbits` loop only ever rewrites single bytes in place, so the
length never changes (any mask). -/
theorem flipbits_loop_length {dlen K b : Nat} {mask : List Nat} :
    ∀ t retdata g res g',
      flipbits_loop dlen mask K b t retdata g = some (res, g') →
      res.length = retdata.length := by
  intro t
  induction t with
  | zero =>
    intro retdata g res g' h
    unfold flipbits_loop at h
    cases h
    rfl
  | succ t ih =>
    intro retdata g res g' h
    unfold flipbits_loop at h
    cases hp : pick_target dlen mask K g with
    | none => rw [hp] at h; cases h
    | some p =>
      obtain ⟨tb, g1⟩ := p
      rw [hp] at h
      simp only at h
      cases hf : flip_byte_bits b (retdata.getD tb 0) g1 with
      | none => rw [hf] at h; cases h
      | some q =>
        obtain ⟨nb, g2⟩ := q
        rw [hf] at h
        simp only at h
        rw [ih _ _ _ _ h, List.length_set]

/-! ### Claim C9 -/

/-- C9: for every input and parameters, a `flipbits` call without a mask
and with `skipfirstbytes = K` that returns normally leaves the first `K`
bytes (indices `0..K`, upper bound excluded — "the first K bytes")
byte-for-byte identical to the input; the Start-Of-Scan corruption is the
instance `K = 20`. -/
theorem C9_skipfirstbytes (data : List Nat) (n b K : Nat) (g res g' : List Nat)
    (h : flipbits data n b K [] g = some (res, g')) :
    res.take K = data.take K := by
  unfold flipbits at h
  simp only [List.isEmpty_nil, if_true] at h
  exact flipbits_loop_keeps_head n data g res g' h

/-- C9 witness: one maskless round with `skipfirstbytes = 1` flips a byte
at index ≥ 1 and keeps the first byte. -/
theorem C9_witness :
    flipbits [1, 2, 3] 1 1 1 [] [0, 0] = some ([1, 3, 3], []) ∧
    ([1, 3, 3] : List Nat).take 1 = ([1, 2, 3] : List Nat).take 1 :=
  ⟨by decide, C9_skipfirstbytes [1, 2, 3] 1 1 1 [0, 0] [1, 3, 3] [] (by decide)⟩

/-! ### Claim C10 -/

/-- C10: whenever `flipbits` returns normally — any input, any parameter
combination, with or without a mask — the returned byte string has exactly
the length of the input. -/
theorem C10_length (data : List Nat) (n b K : Nat) (mask : List Nat) (g res g' : List Nat)
    (h : flipbits data n b K mask g = some (res, g')) :
    res.length = data.length := by
  unfold flipbits at h
  exact flipbits_loop_length n data g res g' h

/-- C10 witness: a 1-byte input comes back with length 1. -/
theorem C10_witness :
    flipbits [5] 1 1 0 [] [0, 0] = some ([4], []) ∧
    ([4] : List Nat).length = ([5] : List Nat).length :=
  ⟨by decide, C10_length [5] 1 1 0 [] [0, 0] [4] [] (by decide)⟩

/-! ### Claim C5 -/

/-- C5 is a code bug: the quantization-table branch of `mosh_jpeg_data`
builds the index mask but never passes it to `flipbits`, which therefore
runs with only `skipfirstbytes=4` — and `randint` includes its lower bound,
so index 4, the first table's 1-byte precision/identifier prefix, can be
modified.  Concretely: on a lone quantization-table segment, with the quant
flag set, `qt=(1,1)`, and draws that pick target byte 4 and bit 0, the
output differs from the input exactly at the prefix byte at index 4
(`0x10` becomes `0x11`). -/
theorem C5_prefix_byte_flipped :
    mosh_jpeg_data [0xff, 0xdb, 0x00, 0x07, 0x10, 0x20, 0x30, 0x40, 0x50] 1 (1, 1) (0, 0)
      false 1 (fun _ => true) [0, 0] =
      Except.ok [0xff, 0xdb, 0x00, 0x07, 0x11, 0x20, 0x30, 0x40, 0x50] ∧
    ([0xff, 0xdb, 0x00, 0x07, 0x11, 0x20, 0x30, 0x40, 0x50] : List Nat).getD 4 0 ≠
      ([0xff, 0xdb, 0x00, 0x07, 0x10, 0x20, 0x30, 0x40, 0x50] : List Nat).getD 4 0 := by
  exact ⟨rfl, by decide⟩

/-! ### Claim C8 -/

/-- C8, as stated, is false: a length-prefixed segment whose declared length
field is 1 yields a 3-byte segment (`moveon = 3`), but 2 plus the big-endian
16-bit value formed from its bytes at indices 2 and 3 is 2. -/
theorem C8_counterexample :
    (read_structure [0xff, 0xfe, 0x00, 0x01]).1 =
      [⟨0xfe, 3, [0xff, 0xfe, 0x00]⟩] ∧
    ¬ ((3 : Nat) = 2 + (256 * ([0xff, 0xfe, 0x00] : List Nat).getD 2 0 +
        ([0xff, 0xfe, 0x00] : List Nat).getD 3 0)) := by
  decide

/-- C8 (amended): for every segment yielded via the length-prefixed default
strategy whose bytes extend at least through the length field (at least 4
bytes), the declared total length equals 2 plus the big-endian 16-bit
integer formed by the segment's bytes at indices 2 and 3. -/
theorem C8_amended (jd : List Nat) (s : Segment) (hs : s ∈ (read_structure jd).1)
    (hlp : length_prefixed_marker s.marker) (h4 : 4 ≤ s.segdata.length) :
    s.moveon = 2 + (256 * s.segdata.getD 2 0 + s.segdata.getD 3 0) := by
  obtain ⟨i, next, hstep⟩ := mem_read_structure hs
  obtain ⟨-, -, -, -, hdata, hdisj⟩ := scanStep_yield_spec hstep
  rcases hdisj with ⟨hfix, -⟩ | ⟨hdd, -⟩ | ⟨hsos, -, -⟩ | ⟨-, -, hmv⟩
  · exact absurd hfix hlp.1
  · exact absurd hdd hlp.2.1
  · exact absurd hsos hlp.2.2
  · have h2 : (2 : Nat) < s.segdata.length := by omega
    have h3 : (3 : Nat) < s.segdata.length := by omega
    rw [hdata] at h2 h3 ⊢
    rw [getD_drop_take h2, getD_drop_take h3, hmv]
    omega

/-- C8 witness: a comment segment with declared length field 4. -/
theorem C8_witness :
    (⟨0xfe, 6, [0xff, 0xfe, 0x00, 0x04, 0x01, 0x02]⟩ : Segment) ∈
      (read_structure [0xff, 0xfe, 0x00, 0x04, 0x01, 0x02]).1 ∧
    length_prefixed_marker 0xfe ∧
    4 ≤ ([0xff, 0xfe, 0x00, 0x04, 0x01, 0x02] : List Nat).length ∧
    (6 : Nat) = 2 + (256 * ([0xff, 0xfe, 0x00, 0x04, 0x01, 0x02] : List Nat).getD 2 0 +
      ([0xff, 0xfe, 0x00, 0x04, 0x01, 0x02] : List Nat).getD 3 0) :=
  ⟨by decide, by decide, by decide,
   C8_amended [0xff, 0xfe, 0x00, 0x04, 0x01, 0x02]
     ⟨0xfe, 6, [0xff, 0xfe, 0x00, 0x04, 0x01, 0x02]⟩
     (by decide) (by decide) (by decide)⟩

/-! ### Corruption-engine lemmas -/

/-- How `mosh_segment` treats one segment: application markers
`0xe1`–`0xef` contribute nothing, and any marker the mode does not target
passes through byte-for-byte. -/
theorem mosh_segment_spec {typ : Nat} {qt im : Nat × Nat} {s : Segment}
    {g piece g' : List Nat}
    (h : mosh_segment typ qt im s g = some (piece, g')) :
    ((0xe1 ≤ s.marker ∧ s.marker ≤ 0xef) → piece = []) ∧
    (nontargeted typ s.marker → piece = s.segdata) := by
  simp only [mosh_segment] at h
  split at h
  · rename_i hdqt
    refine ⟨fun happ => ?_, fun hnt => ?_⟩
    · rw [hdqt] at happ
      exact absurd happ (by decide)
    · rw [if_neg (by simpa using hnt.2.1 hdqt)] at h
      cases h; rfl
  · split at h
    · rename_i hnd hsos
      refine ⟨fun happ => ?_, fun hnt => ?_⟩
      · rw [hsos] at happ
        exact absurd happ (by decide)
      · rw [if_neg (by simpa using hnt.2.2 hsos)] at h
        cases h; rfl
    · split at h
      · rename_i h1 h2 happ'
        cases h
        exact ⟨fun _ => rfl, fun hnt => absurd happ' hnt.1⟩
      · rename_i h1 h2 h3
        cases h
        exact ⟨fun happ => absurd happ h3, fun _ => rfl⟩

/-- `mosh_segments` produces one piece per yielded segment, each related to
its segment as in `mosh_segment_spec`. -/
theorem mosh_segments_spec {typ : Nat} {qt im : Nat × Nat} :
    ∀ (segs : List Segment) (g : List Nat) (pieces : List (List Nat)) (g' : List Nat),
      mosh_segments typ qt im segs g = some (pieces, g') →
      List.Forall₂ (fun (piece : List Nat) (seg : Segment) =>
        ((0xe1 ≤ seg.marker ∧ seg.marker ≤ 0xef) → piece = []) ∧
        (nontargeted typ seg.marker → piece = seg.segdata)) pieces segs := by
  intro segs
  induction segs with
  | nil =>
    intro g pieces g' h
    unfold mosh_segments at h
    cases h
    exact List.Forall₂.nil
  | cons s rest ih =>
    intro g pieces g' h
    unfold mosh_segments at h
    cases hseg : mosh_segment typ qt im s g with
    | none => rw [hseg] at h; cases h
    | some p =>
      obtain ⟨piece, g1⟩ := p
      rw [hseg] at h
      simp only at h
      cases hrest : mosh_segments typ qt im rest g1 with
      | none => rw [hrest] at h; cases h
      | some q =>
        obtain ⟨pieces1, g2⟩ := q
        rw [hrest] at h
        simp only at h
        cases h
        exact List.Forall₂.cons (mosh_segment_spec hseg) (ih g1 pieces1 _ hrest)

/-- Any output of the retry loop is the output of some single attempt. -/
theorem mosh_loop_ok {jpegdata : List Nat} {typ : Nat} {qt im : Nat × Nat}
    {validate : Bool} {dec : List Nat → Bool} :
    ∀ tries g ret, mosh_loop jpegdata typ qt im validate dec tries g = Except.ok ret →
      ∃ g0 g1, mosh_attempt jpegdata typ qt im g0 = some (ret, g1) := by
  intro tries
  induction tries with
  | zero => intro g ret h; unfold mosh_loop at h; cases h
  | succ t ih =>
    intro g ret h
    unfold mosh_loop at h
    cases ha : mosh_attempt jpegdata typ qt im g with
    | none => rw [ha] at h; cases h
    | some p =>
      obtain ⟨rd, g'⟩ := p
      rw [ha] at h
      simp only at h
      split at h
      · cases h; exact ⟨g, g', ha⟩
      · split at h
        · cases h; exact ⟨g, g', ha⟩
        · exact ih g' ret h

/-- A successful attempt joins the per-segment pieces. -/
theorem mosh_attempt_some {jpegdata : List Nat} {typ : Nat} {qt im : Nat × Nat}
    {g ret g' : List Nat}
    (h : mosh_attempt jpegdata typ qt im g = some (ret, g')) :
    ∃ pieces, mosh_segments typ qt im (read_structure jpegdata).1 g = some (pieces, g') ∧
      ret = pieces.flatten := by
  unfold mosh_attempt at h
  split at h
  · cases h
  · cases hm : mosh_segments typ qt im (read_structure jpegdata).1 g with
    | none => rw [hm] at h; cases h
    | some p =>
      obtain ⟨pieces, g2⟩ := p
      rw [hm] at h
      simp only at h
      cases h
      exact ⟨pieces, rfl, rfl⟩

/-! ### Claim C6 -/

/-- C6: whatever `mosh_jpeg_data` returns (any input, any mode/parameter
combination) is the in-order concatenation of one piece per yielded segment,
in which every segment with marker `0xe1`–`0xef` contributes nothing (its
bytes are dropped), and every non-targeted segment — marker `0xe0`, and any
other marker that is neither a stripped application marker nor a
mode-enabled quantization-table / Start-Of-Scan target — contributes its
bytes unmodified. -/
theorem C6_strip_passthrough (jd : List Nat) (typ : Nat) (qt im : Nat × Nat)
    (validate : Bool) (tries : Nat) (dec : List Nat → Bool) (g ret : List Nat)
    (h : mosh_jpeg_data jd typ qt im validate tries dec g = Except.ok ret) :
    ∃ g0 g1 pieces,
      mosh_segments typ qt im (read_structure jd).1 g0 = some (pieces, g1) ∧
      ret = pieces.flatten ∧
      List.Forall₂ (fun (piece : List Nat) (seg : Segment) =>
        ((0xe1 ≤ seg.marker ∧ seg.marker ≤ 0xef) → piece = []) ∧
        (nontargeted typ seg.marker → piece = seg.segdata)) pieces (read_structure jd).1 := by
  unfold mosh_jpeg_data at h
  obtain ⟨g0, g1, ha⟩ := mosh_loop_ok tries g ret h
  obtain ⟨pieces, hm, hret⟩ := mosh_attempt_some ha
  exact ⟨g0, g1, pieces, hm, hret, mosh_segments_spec _ g0 pieces g1 hm⟩

/-- C6 witness: a file with an APP1 and an APP0 segment; the APP1 bytes are
dropped, the APP0 and everything else pass through. -/
theorem C6_witness :
    mosh_jpeg_data
        [0xff, 0xd8, 0xff, 0xe1, 0x00, 0x04, 0x41, 0x42,
         0xff, 0xe0, 0x00, 0x04, 0x43, 0x44, 0xff, 0xd9] 3 (2, 1) (15, 1)
        false 1 (fun _ => true) [] =
      Except.ok [0xff, 0xd8, 0xff, 0xe0, 0x00, 0x04, 0x43, 0x44, 0xff, 0xd9] ∧
    (∃ g0 g1 pieces,
      mosh_segments 3 (2, 1) (15, 1)
          (read_structure [0xff, 0xd8, 0xff, 0xe1, 0x00, 0x04, 0x41, 0x42,
            0xff, 0xe0, 0x00, 0x04, 0x43, 0x44, 0xff, 0xd9]).1 g0 = some (pieces, g1) ∧
      [0xff, 0xd8, 0xff, 0xe0, 0x00, 0x04, 0x43, 0x44, 0xff, 0xd9] = pieces.flatten ∧
      List.Forall₂ (fun (piece : List Nat) (seg : Segment) =>
        ((0xe1 ≤ seg.marker ∧ seg.marker ≤ 0xef) → piece = []) ∧
        (nontargeted 3 seg.marker → piece = seg.segdata)) pieces
        (read_structure [0xff, 0xd8, 0xff, 0xe1, 0x00, 0x04, 0x41, 0x42,
          0xff, 0xe0, 0x00, 0x04, 0x43, 0x44, 0xff, 0xd9]).1) :=
  ⟨rfl,
   C6_strip_passthrough
     [0xff, 0xd8, 0xff, 0xe1, 0x00, 0x04, 0x41, 0x42,
      0xff, 0xe0, 0x00, 0x04, 0x43, 0x44, 0xff, 0xd9] 3 (2, 1) (15, 1)
     false 1 (fun _ => true) []
     [0xff, 0xd8, 0xff, 0xe0, 0x00, 0x04, 0x43, 0x44, 0xff, 0xd9] rfl⟩

/-! ### Claim C7 -/

/-- C7, as stated, is false for `validate_maxtries = 0`: the `while tries >
0` loop body never runs, so even with `validate=False` — where the claim
says the first candidate is returned unconditionally — the function raises
the retry-exhaustion `ValueError`, although a first candidate exists (here
the empty input's candidate, the empty byte string). -/
theorem C7_counterexample :
    mosh_attempt [] 3 (2, 1) (15, 1) [] = some ([], []) ∧
    mosh_jpeg_data [] 3 (2, 1) (15, 1) false 0 (fun _ => true) [] =
      Except.error MoshError.retryExhausted :=
  ⟨rfl, rfl⟩

/-- With `validate=True` the retry loop returns the first candidate the
decoder accepts, and raises retry exhaustion exactly when it accepts none
of the generated candidates. -/
theorem mosh_loop_validate_find {jd : List Nat} {typ : Nat} {qt im : Nat × Nat}
    {dec : List Nat → Bool} :
    ∀ tries g cs, mosh_candidates jd typ qt im tries g = some cs →
      mosh_loop jd typ qt im true dec tries g =
        (match cs.find? dec with
         | some c => Except.ok c
         | none => Except.error MoshError.retryExhausted) := by
  intro tries
  induction tries with
  | zero =>
    intro g cs h
    unfold mosh_candidates at h
    cases h
    rfl
  | succ t ih =>
    intro g cs h
    unfold mosh_candidates at h
    cases ha : mosh_attempt jd typ qt im g with
    | none => rw [ha] at h; cases h
    | some p =>
      obtain ⟨c, g'⟩ := p
      rw [ha] at h
      simp only at h
      cases hc2 : mosh_candidates jd typ qt im t g' with
      | none => rw [hc2] at h; cases h
      | some cs' =>
        rw [hc2] at h
        simp only at h
        cases h
        unfold mosh_loop
        rw [ha]
        simp only
        rw [if_neg (by simp)]
        cases hdec : dec c with
        | true =>
          rw [if_pos rfl, List.find?_cons_of_pos _ hdec]
        | false =>
          rw [if_neg (by simp), List.find?_cons_of_neg _ (by simp [hdec])]
          exact ih g' cs' hc2

/-- C7 (amended): for every positive `validate_maxtries` whose candidate
generation raises no exception, `mosh_jpeg_data` with `validate=False`
returns the first candidate, and with `validate=True` returns the first
candidate passing external decode validation, raising the retry-exhaustion
error if and only if none of the `validate_maxtries` candidates passes. -/
theorem C7_amended (jd : List Nat) (typ : Nat) (qt im : Nat × Nat) (tries : Nat)
    (dec : List Nat → Bool) (g : List Nat) (cs : List (List Nat))
    (h1 : 1 ≤ tries) (hc : mosh_candidates jd typ qt im tries g = some cs) :
    mosh_jpeg_data jd typ qt im false tries dec g = Except.ok (cs.getD 0 []) ∧
    mosh_jpeg_data jd typ qt im true tries dec g =
      (match cs.find? dec with
       | some c => Except.ok c
       | none => Except.error MoshError.retryExhausted) := by
  obtain ⟨t, rfl⟩ : ∃ t, tries = t + 1 := ⟨tries - 1, by omega⟩
  constructor
  · unfold mosh_jpeg_data
    unfold mosh_candidates at hc
    cases ha : mosh_attempt jd typ qt im g with
    | none => rw [ha] at hc; cases hc
    | some p =>
      obtain ⟨c, g'⟩ := p
      rw [ha] at hc
      simp only at hc
      cases hc2 : mosh_candidates jd typ qt im t g' with
      | none => rw [hc2] at hc; cases hc
      | some cs' =>
        rw [hc2] at hc
        simp only at hc
        cases hc
        unfold mosh_loop
        rw [ha]
        simp
  · unfold mosh_jpeg_data
    exact mosh_loop_validate_find (t + 1) g cs hc

/-- C7 witness: the empty input, one try, and a decoder that rejects
everything — `validate=False` returns the candidate, `validate=True`
exhausts its budget. -/
theorem C7_witness :
    (1 : Nat) ≤ 1 ∧
    mosh_candidates [] 3 (2, 1) (15, 1) 1 [] = some [[]] ∧
    (mosh_jpeg_data [] 3 (2, 1) (15, 1) false 1 (fun _ => false) [] =
       Except.ok (([[]] : List (List Nat)).getD 0 []) ∧
     mosh_jpeg_data [] 3 (2, 1) (15, 1) true 1 (fun _ => false) [] =
       (match ([[]] : List (List Nat)).find? (fun _ => false) with
        | some c => Except.ok c
        | none => Except.error MoshError.retryExhausted)) :=
  ⟨by decide, by decide,
   C7_amended [] 3 (2, 1) (15, 1) 1 (fun _ => false) [] [[]] (by decide) (by decide)⟩

end JpegMosh
